import Mathlib

/-!
Verification development for the parsonic scrape core: shallow embedding of
the proxy pool (src/core/proxy_manager.py), the scrape orchestrator loop
(src/core/scraper.py) and the two fetch engines
(src/engines/static_engine.py, src/engines/js_engine.py), together with
theorems settling the frozen specification claims.

External effects (HTTP fetches, the DOM query capability, the random number
source, the user sitting at the pause prompt) are passed in as explicit
oracle functions, so every definition is executable; the control flow and
the data transformations are translated from the Python source.
-/

namespace Parsonic

/-! ## Data model (src/engines/base.py, src/models/project.py) -/

/-- Mirror of `ScrapeResult` in src/engines/base.py.  `data` is the Python
dict `dict[str, Any]` modelled as an insertion-ordered association list;
the timing field `elapsed_ms` is omitted (wall-clock time is outside the
embedding). -/
structure ScrapeResult where
  url : String
  success : Bool
  data : List (String × Option String)
  error : Option String := none
  status_code : Option Nat := none
  html : Option String := none
deriving DecidableEq

/-- Mirror of `RobotsWarning` in src/engines/base.py. -/
structure RobotsWarning where
  url : String
  disallowed_paths : List String
  message : String
deriving DecidableEq

/-- Mirror of `SelectorField` in src/models/project.py (the `attribute`
field is named `attr` because `attribute` is a Lean keyword). -/
structure SelectorField where
  name : String
  selector : String
  selector_type : String := "css"
  attr : Option String := none
  fallback_selectors : List String := []
deriving DecidableEq

/-- Mirror of `RateLimitConfig` in src/models/project.py; the float delays
are modelled as rationals. -/
structure RateLimitConfig where
  min_delay : ℚ := 1
  max_delay : ℚ := 3
  max_concurrent : Nat := 3
  adaptive : Bool := true
deriving DecidableEq

/-! ## Proxy manager (src/core/proxy_manager.py) -/

/-- Mirror of `ProxyStatus`; the timing fields `last_check` and
`response_time_ms` are omitted (wall-clock values, touched only by the
network health check which is outside the embedding). -/
structure ProxyStatus where
  url : String
  is_healthy : Bool := true
  fail_count : Nat := 0
  success_count : Nat := 0
  last_error : Option String := none
deriving DecidableEq

/-- State of a `ProxyManager`: the `pool.proxies` dict (keyed by the proxy
url, insertion ordered, so modelled as a list of statuses with distinct
urls), the rotation index and the unhealthy threshold. -/
structure ProxyManagerState where
  proxies : List ProxyStatus
  current_index : Nat := 0
  max_fail_count : Nat := 3
deriving DecidableEq

/-- Dict write `pool.proxies[proxy] = ProxyStatus(url=proxy)` used by
`ProxyManager.__init__`: replace in place if the key exists, else append. -/
def addStatus (l : List ProxyStatus) (u : String) : List ProxyStatus :=
  if l.any (fun s => s.url == u) then
    l.map (fun s => if s.url == u then { url := u } else s)
  else
    l ++ [{ url := u }]

/-- `ProxyManager.__init__`: every configured proxy starts healthy. -/
def mkProxyManager (proxies : List String) (max_fail_count : Nat) : ProxyManagerState :=
  { proxies := proxies.foldl addStatus []
    current_index := 0
    max_fail_count := max_fail_count }

/-- `ProxyManager.healthy_proxies`: urls of the currently healthy proxies,
in pool order. -/
def healthy_proxies (m : ProxyManagerState) : List String :=
  (m.proxies.filter (fun s => s.is_healthy)).map (fun s => s.url)

/-- The recovery pass inside `ProxyManager.get_next_proxy` (lines 74-77):
only statuses with `fail_count < max_fail_count * 2` are reset to healthy. -/
def resetRecoverable (m : ProxyManagerState) : ProxyManagerState :=
  { m with proxies := m.proxies.map (fun s =>
      if s.fail_count < m.max_fail_count * 2 then { s with is_healthy := true } else s) }

/-- `ProxyManager.get_next_proxy` (lines 69-84): round-robin over the
healthy proxies, attempting the recovery reset first when none is healthy.
Returns the chosen proxy (if any) and the updated state. -/
def get_next_proxy (m : ProxyManagerState) : Option String × ProxyManagerState :=
  let healthy := healthy_proxies m
  let m1 := if healthy.isEmpty then resetRecoverable m else m
  let healthy1 := healthy_proxies m1
  if healthy1.isEmpty then
    (none, m1)
  else
    let idx := (m1.current_index + 1) % healthy1.length
    (healthy1.get? idx, { m1 with current_index := idx })

/-- `ProxyManager.mark_success` (lines 86-93): a no-op when the url is not
a pool key. -/
def mark_success (m : ProxyManagerState) (proxy_url : String) : ProxyManagerState :=
  if m.proxies.any (fun s => s.url == proxy_url) then
    { m with proxies := m.proxies.map (fun s =>
        if s.url == proxy_url then
          { s with success_count := s.success_count + 1
                   fail_count := 0
                   is_healthy := true
                   last_error := none }
        else s) }
  else m

/-- `ProxyManager.mark_failure` (lines 95-103): increment the failure
streak, record the error, and mark unhealthy once the streak reaches
`max_fail_count`; a no-op when the url is not a pool key. -/
def mark_failure (m : ProxyManagerState) (proxy_url : String) (error : Option String) :
    ProxyManagerState :=
  if m.proxies.any (fun s => s.url == proxy_url) then
    { m with proxies := m.proxies.map (fun s =>
        if s.url == proxy_url then
          let s1 := { s with fail_count := s.fail_count + 1, last_error := error }
          if s1.fail_count ≥ m.max_fail_count then { s1 with is_healthy := false } else s1
        else s) }
  else m

/-- A pool built through the public API whose single proxy has failed six
times: three failures mark it unhealthy, the recovery reset inside
`get_next_proxy` revives it (3 < 6), and three more failures leave it at
`fail_count = 6`, beyond the recovery bound. -/
def c1manager : ProxyManagerState :=
  let m0 := mkProxyManager ["http://proxy-a:8080"] 3
  let m3 := (List.range 3).foldl (fun m _ => mark_failure m ("http://proxy-a:8080") (some ("connect timeout"))) m0
  let m3r := (get_next_proxy m3).2
  (List.range 3).foldl (fun m _ => mark_failure m ("http://proxy-a:8080") (some ("connect timeout"))) m3r

/-! ## Value sanitisation and field extraction (both engines) -/

/-- `_sanitize_value` (static_engine.py lines 121-149, identical in
js_engine.py lines 197-222): strip `mailto:` / `tel:` prefixes, reject
`javascript:` values, collapse whitespace and remove zero-width
characters. -/
def sanitize_value (value : String) : String :=
  if value == "" then value
  else
    let value := if value.toLower.startsWith ("mailto:") then value.drop 7 else value
    let value := if value.toLower.startsWith ("tel:") then value.drop 4 else value
    if value.toLower.startsWith ("javascript:") then ("")
    else
      let value := (" ").intercalate ((value.split Char.isWhitespace).filter (fun w => w ≠ ""))
      String.mk (value.toList.filter (fun c =>
        c ≠ '\u200B' ∧ c ≠ '\u200C' ∧ c ≠ '\u200D' ∧ c ≠ '\uFEFF'))

/-- Helper for `_extract_field`: walk the selector list in order; the
page-query oracle `query` returns the raw value a selector yields (`none`
models a missing element or a falsy attribute value).  An empty string is
falsy in Python, so it sends the loop to the next selector. -/
def extractFieldGo (query : String → Option String) : List String → Option String
  | [] => none
  | s :: rest =>
    match query s with
    | some v => if v ≠ "" then some (sanitize_value v) else extractFieldGo query rest
    | none => extractFieldGo query rest

/-- `StaticEngine._extract_field` (lines 151-175): primary selector first,
then the fallbacks; a field whose `selector_type` is `xpath` skips every
selector (BeautifulSoup has no XPath support) and yields `None`. -/
def extract_field (query : String → Option String) (f : SelectorField) : Option String :=
  if f.selector_type == "xpath" then none
  else extractFieldGo query (f.selector :: f.fallback_selectors)

/-- `PlaywrightEngine._extract_field` (lines 224-246): XPath selectors are
supported through the `xpath=` prefix, so nothing is skipped. -/
def js_extract_field (query : String → Option String) (f : SelectorField) : Option String :=
  extractFieldGo (fun s => if f.selector_type == "xpath" then query ("xpath=" ++ s) else query s)
    (f.selector :: f.fallback_selectors)

/-- Python dict assignment `d[k] = v`: update in place when the key
exists, append otherwise. -/
def dictInsert (d : List (String × Option String)) (k : String) (v : Option String) :
    List (String × Option String) :=
  if d.any (fun p => p.1 == k) then
    d.map (fun p => if p.1 == k then (k, v) else p)
  else
    d ++ [(k, v)]

/-- The field-extraction loop of `scrape` (static_engine.py lines
261-264): build the `data` dict one rule at a time. -/
def extractAllData (query : String → Option String) (fields : List SelectorField) :
    List (String × Option String) :=
  fields.foldl (fun d f => dictInsert d f.name (extract_field query f)) []

/-- Same loop in `PlaywrightEngine.scrape` (lines 318-321), using the
Playwright field extractor. -/
def jsExtractAllData (query : String → Option String) (fields : List SelectorField) :
    List (String × Option String) :=
  fields.foldl (fun d f => dictInsert d f.name (js_extract_field query f)) []

/-- Key-ordered insertion used to model `_compute_hash`. -/
def insertSortedByKey (p : String × Option String) :
    List (String × Option String) → List (String × Option String)
  | [] => [p]
  | q :: rest => if p.1 ≤ q.1 then p :: q :: rest else q :: insertSortedByKey p rest

/-- `_compute_hash` (static_engine.py lines 177-180, js_engine.py lines
248-251): `md5(str(sorted(data.items())))`.  The md5 digest is modelled by
the canonical (key-sorted) form itself, which is injective on it. -/
def compute_hash (d : List (String × Option String)) : List (String × Option String) :=
  d.foldr insertSortedByKey []

/-! ## Rate limiter (static_engine.py lines 107-119, js_engine.py 184-195) -/

/-- The delay computed by `_wait_rate_limit`.  `r` models the output of
`random.random()` in `[0, 1]`; CPython defines `random.uniform(a, b)` as
`a + (b - a) * random()`. -/
def rateLimitDelay (cfg : RateLimitConfig) (consecutive_errors : Nat) (r : ℚ) : ℚ :=
  if cfg.adaptive = true ∧ 0 < consecutive_errors then
    min (cfg.max_delay * 2 ^ consecutive_errors) 60
  else
    cfg.min_delay + (cfg.max_delay - cfg.min_delay) * r

/-! ## Retry loop shared by the two engines -/

/-- What one iteration of the `for attempt in range(retry_count + 1)` body
does: either return a result immediately (`done`) or fall into an `except`
branch (`failed`), recording the new `last_error` message and the value the
loop-local `html` variable was assigned before the exception (if any). -/
inductive AttemptRes where
  | done (r : ScrapeResult)
  | failed (msg : String) (htmlUpd : Option String)
deriving DecidableEq

/-- Whether an iteration fell into an `except` branch. -/
def isFailedAttempt : AttemptRes → Bool
  | .done _ => false
  | .failed _ _ => true

/-- `last_error` message of a failed iteration. -/
def failMsg : AttemptRes → String
  | .done _ => ""
  | .failed m _ => m

/-- Update to the loop-local `html` variable made by a failed iteration. -/
def failUpd : AttemptRes → Option String
  | .done _ => none
  | .failed _ u => u

/-- A completed scrape call, together with the backoff sleeps (seconds, in
order) and the number of loop iterations that ran. -/
structure ScrapeExec where
  result : ScrapeResult
  sleeps : List Nat
  attemptsMade : Nat
deriving DecidableEq

/-- Assignment the `except` branch leaves in the loop-local `html`
variable: keep the previous value unless the attempt set a new one. -/
def updateHtml (upd h : Option String) : Option String :=
  match upd with
  | some nh => some nh
  | none => h

/-- The retry loop of `scrape` (static_engine.py lines 241-321,
js_engine.py lines 292-365).  `i` is the current attempt index, `fuel` the
remaining iterations (`retry_count + 1` at entry), `le` / `h` the
loop-local `last_error` / `html` variables, `sl` the sleeps so far in
reverse.  Before each retry (`attempt < retry_count`) the loop sleeps
`2 ^ attempt` seconds; when the loop exhausts, `mkFail` builds the failed
result from `last_error` and `html`. -/
def retryLoop (rc : Nat) (attempt : Nat → AttemptRes)
    (mkFail : Option String → Option String → ScrapeResult) :
    Nat → Nat → Option String → Option String → List Nat → ScrapeExec
  | i, 0, le, h, sl =>
    { result := mkFail le h, sleeps := sl.reverse, attemptsMade := i }
  | i, fuel + 1, le, h, sl =>
    match attempt i with
    | .done r => { result := r, sleeps := sl.reverse, attemptsMade := i + 1 }
    | .failed msg upd =>
      retryLoop rc attempt mkFail (i + 1) fuel (some msg) (updateHtml upd h)
        (if i < rc then 2 ^ i :: sl else sl)

/-! ## Static engine (src/engines/static_engine.py) -/

/-- Configuration flags of `StaticEngine.__init__` that the claims
exercise. -/
structure StaticCfg where
  retry_count : Nat := 3
  save_html_on_error : Bool := true
  respect_robots : Bool := true
  detect_duplicates : Bool := true
deriving DecidableEq

/-- Outcome of one fetch attempt by the static engine, as seen by the
`try` body: a successful fetch delivering the page, or one of the three
`except` branches.  `raise_for_status` fires before `html = response.text`,
so only the generic `except Exception` branch (parse or extraction
failures) can leave a freshly assigned `html` behind. -/
inductive StaticOutcome where
  | ok (html : String) (status : Nat)
  | httpError (code : Nat) (reason : String)
  | requestError (msg : String)
  | unexpectedError (html : Option String) (msg : String)
deriving DecidableEq

/-- Whether an attempt outcome is one of the `except` branches. -/
def staticIsFail : StaticOutcome → Bool
  | .ok _ _ => false
  | _ => true

/-- The `last_error` string each `except` branch of
`StaticEngine.scrape` records (lines 291-307). -/
def staticErrorMsg : StaticOutcome → String
  | .ok _ _ => ""
  | .httpError code reason => "HTTP (" ++ toString code ++ "): " ++ reason
  | .requestError msg => "Request failed: " ++ msg
  | .unexpectedError _ msg => "Unexpected error: " ++ msg

/-- The update an attempt makes to the loop-local `html` variable. -/
def staticHtmlUpd : StaticOutcome → Option String
  | .unexpectedError h _ => h
  | _ => none

/-- One iteration of the static retry loop (lines 241-307): on a
successful fetch, parse, extract all fields, and either return the
duplicate-annotated success (lines 267-278) or the plain success (lines
281-289); each `except` branch records its `last_error`. -/
def staticAttempt (cfg : StaticCfg) (url : String) (fields : List SelectorField)
    (query : String → String → Option String) (outcome : Nat → StaticOutcome)
    (seenHashes : List (List (String × Option String))) (i : Nat) : AttemptRes :=
  match outcome i with
  | .ok html status =>
    let data := extractAllData (query html) fields
    if cfg.detect_duplicates = true ∧ compute_hash data ∈ seenHashes then
      .done { url := url, success := true, data := data, status_code := some status
              error := some ("Duplicate detected (skipped)"), html := some html }
    else
      .done { url := url, success := true, data := data, status_code := some status
              html := some html }
  | .httpError code reason => .failed (staticErrorMsg (.httpError code reason)) none
  | .requestError msg => .failed (staticErrorMsg (.requestError msg)) none
  | .unexpectedError h msg => .failed (staticErrorMsg (.unexpectedError h msg)) h

/-- The post-loop failed result of `StaticEngine.scrape` (lines 313-321):
the comment in the source says `Always include for crawling` — the html is
attached unconditionally, `save_html_on_error` is not consulted. -/
def staticMkFail (url : String) (le : Option String) (h : Option String) : ScrapeResult :=
  { url := url, success := false, data := [], error := le, html := h }

/-- `StaticEngine.check_robots` (lines 182-211) for one call: the cached
or freshly fetched robots parser is `robotsFetch` (`none` models a fetch
failure, treated fail-open).  The source interpolates the path between
single quotes; the quotes are dropped here. -/
def staticCheckRobots (respect_robots : Bool) (robotsFetch : Option (String → Bool))
    (url path : String) : Option RobotsWarning :=
  if respect_robots = false then none
  else
    match robotsFetch with
    | none => none
    | some can_fetch =>
      if can_fetch url = true then none
      else
        some { url := url, disallowed_paths := [path]
               message := "URL path (" ++ path ++ ") is disallowed by robots.txt" }

/-- `StaticEngine.scrape` (lines 213-321): check robots.txt first and
return the blocked failure without touching the network when it warns
(lines 223-232), otherwise run the retry loop. -/
def staticScrape (cfg : StaticCfg) (robotsFetch : Option (String → Bool))
    (url path : String) (fields : List SelectorField)
    (query : String → String → Option String) (outcome : Nat → StaticOutcome)
    (seenHashes : List (List (String × Option String))) : ScrapeExec :=
  match staticCheckRobots cfg.respect_robots robotsFetch url path with
  | some w =>
    { result := { url := url, success := false, data := []
                  error := some ("Blocked by robots.txt: " ++ w.message) }
      sleeps := [], attemptsMade := 0 }
  | none =>
    retryLoop cfg.retry_count (staticAttempt cfg url fields query outcome seenHashes)
      (staticMkFail url) 0 (cfg.retry_count + 1) none none []

/-! ## Playwright engine (src/engines/js_engine.py) -/

/-- Configuration flags of `PlaywrightEngine.__init__` that the claims
exercise. -/
structure JsCfg where
  retry_count : Nat := 3
  save_html_on_error : Bool := true
  respect_robots : Bool := true
  detect_duplicates : Bool := true
deriving DecidableEq

/-- Outcome of one render attempt: success with the settled page content
and the navigation status, or an exception (`fail`), with the value the
loop-local `html` variable received before the exception, if any. -/
inductive JsOutcome where
  | ok (html : String) (status : Option Nat)
  | fail (html : Option String) (msg : String)
deriving DecidableEq

/-- Whether a render attempt raised. -/
def jsIsFail : JsOutcome → Bool
  | .ok _ _ => false
  | .fail _ _ => true

/-- `last_error = str(e)` for a failed render attempt (line 347). -/
def jsErrorMsg : JsOutcome → String
  | .ok _ _ => ""
  | .fail _ m => m

/-- The update a render attempt makes to the loop-local `html` variable. -/
def jsHtmlUpd : JsOutcome → Option String
  | .ok _ _ => none
  | .fail h _ => h

/-- One iteration of the Playwright retry loop (lines 292-348): neither
success return attaches the page html (compare lines 327-344). -/
def jsAttempt (jcfg : JsCfg) (url : String) (fields : List SelectorField)
    (query : String → String → Option String) (outcome : Nat → JsOutcome)
    (seenHashes : List (List (String × Option String))) (i : Nat) : AttemptRes :=
  match outcome i with
  | .ok html status =>
    let data := jsExtractAllData (query html) fields
    if jcfg.detect_duplicates = true ∧ compute_hash data ∈ seenHashes then
      .done { url := url, success := true, data := data, status_code := status
              error := some ("Duplicate detected (skipped)") }
    else
      .done { url := url, success := true, data := data, status_code := status }
  | .fail h msg => .failed msg h

/-- The post-loop failed result of `PlaywrightEngine.scrape` (lines
358-365): the html is attached only when `save_html_on_error` is set. -/
def jsMkFail (jcfg : JsCfg) (url : String) (le : Option String) (h : Option String) :
    ScrapeResult :=
  { url := url, success := false, data := [], error := le
    html := if jcfg.save_html_on_error = true then h else none }

/-- `PlaywrightEngine.scrape` (lines 276-365): no robots consultation at
all — the retry loop starts right after rate limiting. -/
def jsScrape (jcfg : JsCfg) (url : String) (fields : List SelectorField)
    (query : String → String → Option String) (outcome : Nat → JsOutcome)
    (seenHashes : List (List (String × Option String))) : ScrapeExec :=
  retryLoop jcfg.retry_count (jsAttempt jcfg url fields query outcome seenHashes)
    (jsMkFail jcfg url) 0 (jcfg.retry_count + 1) none none []

/-- Association lookup in the Playwright robots cache
(`dict[str, bool]`). -/
def assocFind (cache : List (String × Bool)) (k : String) : Option Bool :=
  (cache.find? (fun p => p.1 == k)).map (fun p => p.2)

/-- `PlaywrightEngine.check_robots` (lines 253-274): never blocks; warns
only when the cache already holds `False` for the origin, and otherwise
marks the origin as checked (`True`). -/
def jsCheckRobots (respect_robots : Bool) (cache : List (String × Bool))
    (baseUrl path url : String) : Option RobotsWarning × List (String × Bool) :=
  if respect_robots = false then (none, cache)
  else
    match assocFind cache baseUrl with
    | some b =>
      if b = false then
        (some { url := url, disallowed_paths := [path]
                message := "Path may be restricted by robots.txt" }, cache)
      else (none, cache)
    | none => (none, cache ++ [(baseUrl, true)])

/-! ## Batch scraping (static_engine.py lines 323-361, js_engine.py 367-402) -/

/-- Worker list of `scrape_batch`: `runOne i url` is the settled outcome of
the task `scrape(urls[i])` — `Except.error` models the task raising, which
`asyncio.gather(..., return_exceptions=True)` hands back in place. -/
def scrapeBatchGo (runOne : Nat → String → Except String ScrapeResult) :
    Nat → List String → List ScrapeResult
  | _, [] => []
  | i, url :: rest =>
    (match runOne i url with
     | .ok r => r
     | .error e => { url := url, success := false, data := [], error := some e }) ::
      scrapeBatchGo runOne (i + 1) rest

/-- `scrape_batch`: gather all per-url tasks in input order and convert
any raised exception into a failed result for that url (lines 346-361). -/
def scrape_batch (urls : List String) (runOne : Nat → String → Except String ScrapeResult) :
    List ScrapeResult :=
  scrapeBatchGo runOne 0 urls

/-! ## Orchestrator (src/core/scraper.py) -/

/-- The three control calls an external caller can make while the run is
paused: `resume()`, `skip_current()` and `stop()` (lines 350-361). -/
inductive Decision where
  | resume
  | skipCurrent
  | stop
deriving DecidableEq

/-- Whether `pat` is a prefix of the character list. -/
def isPrefixList : List Char → List Char → Bool
  | [], _ => true
  | _ :: _, [] => false
  | p :: ps, c :: cs => p == c && isPrefixList ps cs

/-- Whether `pat` occurs contiguously in the character list. -/
def containsSubList (pat : List Char) : List Char → Bool
  | [] => isPrefixList pat []
  | c :: cs => isPrefixList pat (c :: cs) || containsSubList pat cs

/-- Python substring test `pat in s`. -/
def strContains (s pat : String) : Bool :=
  containsSubList pat.toList s.toList

/-- `ScraperOrchestrator._should_pause_on_error` (lines 345-348): pause
when there is a truthy error message containing `HTTP 4`. -/
def should_pause_on_error (r : ScrapeResult) : Bool :=
  match r.error with
  | none => false
  | some e => e != "" && strContains e ("HTTP 4")

/-- The final-summary success count (line 268):
`sum(1 for r in results if r.success)`. -/
def successCount (results : List ScrapeResult) : Nat :=
  (results.filter (fun r => r.success)).length

/-- `list(dict.fromkeys(...))` (line 230): de-duplicate the per-page link
list keeping first occurrences. -/
def dedupFirst (l : List String) : List String :=
  l.foldl (fun acc x => if x ∈ acc then acc else acc ++ [x]) []

/-- State of one `ScraperOrchestrator.run` invocation: the crawl queue,
the seen set, the page counter, the urls popped so far (each pop is
followed by exactly one `engine.scrape` call) and the result stream. -/
structure OrchSt where
  urlQueue : List String
  seenUrls : List String
  pagesScraped : Nat
  fetched : List String
  results : List ScrapeResult
deriving DecidableEq

/-- Queue one discovered link (lines 233-237): links already seen are
silently skipped. -/
def queueLink (s : OrchSt) (link : String) : OrchSt :=
  if link ∈ s.seenUrls then s
  else { s with seenUrls := s.seenUrls ++ [link], urlQueue := s.urlQueue ++ [link] }

/-- What happens after a fetch result survives the pause gate (lines
219-244): append it to the result stream; when crawling, extract the
page's links (the `links` oracle abstracts `_extract_links` over all
selectors), de-duplicate them within the page, and queue the unseen ones.
Python treats `result.html` as falsy when it is `None` or empty. -/
def afterFetch (crawl : Bool) (links : String → String → List String)
    (st : OrchSt) (url : String) (r : ScrapeResult) : OrchSt :=
  let st1 := { st with results := st.results ++ [r] }
  if crawl then
    match r.html with
    | some html =>
      if html == "" then st1
      else (dedupFirst (links html url)).foldl queueLink st1
    | none => st1
  else st1

/-- Popping a url off the queue (lines 192-193): the page counter
increments once per popped url, before the fetch. -/
def popStep (st : OrchSt) (url : String) (rest : List String) : OrchSt :=
  { st with urlQueue := rest, pagesScraped := st.pagesScraped + 1,
            fetched := st.fetched ++ [url] }

/-- The `while url_queue and pages_scraped < max_pages` loop of
`ScraperOrchestrator.run` (lines 187-264).  `fuel` is
`max_pages - pages_scraped`, which strictly decreases each iteration; the
`world` oracle is `engine.scrape` for the popped url, and `react url` is
the control call the external caller makes when the run pauses on that
url's failure.  `resume()` and `skip_current()` both merely clear the
paused flag, after which the result is appended (line 219); `stop()` sets
the stop flag, which breaks out before the append. -/
def runLoop (crawl : Bool) (maxPages : Nat) (world : String → ScrapeResult)
    (react : String → Decision) (links : String → String → List String) :
    Nat → OrchSt → OrchSt
  | 0, st => st
  | fuel + 1, st =>
    match st.urlQueue with
    | [] => st
    | url :: rest =>
      let st1 : OrchSt := popStep st url rest
      let r := world url
      if !r.success && should_pause_on_error r then
        if react url = Decision.stop then st1
        else runLoop crawl maxPages world react links fuel (afterFetch crawl links st1 url r)
      else
        runLoop crawl maxPages world react links fuel (afterFetch crawl links st1 url r)

/-- The initial crawl state of `run` (lines 172-175): queue seeded with
the project urls, `seen_urls = set(url_queue)`, counter at zero. -/
def initOrchSt (urls : List String) : OrchSt :=
  { urlQueue := urls, seenUrls := urls, pagesScraped := 0, fetched := [], results := [] }

/-- One full orchestrator run over the seeded queue. -/
def runOrchestrator (crawl : Bool) (maxPages : Nat) (urls : List String)
    (world : String → ScrapeResult) (react : String → Decision)
    (links : String → String → List String) : OrchSt :=
  runLoop crawl maxPages world react links maxPages (initOrchSt urls)

/-! ## Concrete instances used by counterexamples and witnesses -/

/-- A url whose fetch fails with an HTTP 404 after retries. -/
def c2url : String := "http://site.example/a"

/-- The failed 404 result the engine hands back for `c2url`. -/
def c2result : ScrapeResult :=
  { url := c2url, success := false, data := [], error := some ("HTTP 404: Not Found") }

/-- A single field rule used by concrete runs. -/
def c3field : SelectorField := { name := "title", selector := "h1" }

/-- A static-engine configuration with html-saving disabled and no
retries. -/
def c5cfg : StaticCfg := { retry_count := 0, save_html_on_error := false }

/-- A concrete batch worker whose first task raises and whose second task
returns a successful result. -/
def c8run : Nat → String → Except String ScrapeResult :=
  fun i _ =>
    if i == 0 then Except.error ("boom")
    else Except.ok { url := "http://b.example", success := true, data := [] }

/-- An attempt sequence whose first two attempts fail with network errors
and whose third succeeds. -/
def c7outcome : Nat → StaticOutcome :=
  fun i =>
    if i == 0 then StaticOutcome.requestError ("ConnectTimeout")
    else if i == 1 then StaticOutcome.requestError ("ReadTimeout")
    else StaticOutcome.ok ("<html>ok</html>") 200

/-! ## Recomputation of the retry-loop accumulators

The loop-local variables `last_error`, `html` and the backoff sleeps are
threaded through the retry loop; the following functions recompute them
attempt by attempt so the exhaustion theorems can name their final
values. -/

/-- Thread an indexed update through `fuel` steps starting at index `i`. -/
def threadAcc {α : Type} (g : Nat → α → α) : Nat → Nat → α → α
  | _, 0, a => a
  | i, fuel + 1, a => threadAcc g (i + 1) fuel (g i a)

/-- Final `last_error` after the attempts in `[i, i + fuel)` all failed. -/
def lastErrAcc (attempt : Nat → AttemptRes) (i fuel : Nat) (le : Option String) :
    Option String :=
  threadAcc (fun j _ => some (failMsg (attempt j))) i fuel le

/-- Final loop-local `html` after the attempts in `[i, i + fuel)` all
failed. -/
def htmlAcc (attempt : Nat → AttemptRes) (i fuel : Nat) (h : Option String) :
    Option String :=
  threadAcc (fun j hh => updateHtml (failUpd (attempt j)) hh) i fuel h

/-- Sleeps accumulated (reversed) across the attempts in `[i, i + fuel)`. -/
def sleepAcc (rc i fuel : Nat) (sl : List Nat) : List Nat :=
  threadAcc (fun j s => if j < rc then 2 ^ j :: s else s) i fuel sl

/-- The raw page content the static failure result carries after `n`
failed attempts: whatever the latest `unexpectedError` attempt had
assigned to `html`. -/
def staticHtmlAcross (outcome : Nat → StaticOutcome) (n : Nat) : Option String :=
  threadAcc (fun j hh => updateHtml (staticHtmlUpd (outcome j)) hh) 0 n none

/-- The raw page content available to the Playwright failure result after
`n` failed attempts. -/
def jsHtmlAcross (outcome : Nat → JsOutcome) (n : Nat) : Option String :=
  threadAcc (fun j hh => updateHtml (jsHtmlUpd (outcome j)) hh) 0 n none

/-! # Theorems -/

/-! ## Generic facts about the retry loop -/

theorem threadAcc_congr {α : Type} (g1 g2 : Nat → α → α) (hg : ∀ j a, g1 j a = g2 j a) :
    ∀ fuel i a, threadAcc g1 i fuel a = threadAcc g2 i fuel a := by
  intro fuel
  induction fuel with
  | zero => intro i a; rfl
  | succ n ih => intro i a; simp only [threadAcc, hg]; exact ih (i + 1) (g2 i a)

theorem threadAcc_lastSome (f : Nat → String) :
    ∀ fuel i (a : Option String),
      threadAcc (fun j _ => some (f j)) i (fuel + 1) a = some (f (i + fuel)) := by
  intro fuel
  induction fuel with
  | zero => intro i a; rfl
  | succ n ih =>
    intro i a
    have h1 : threadAcc (fun j _ => some (f j)) i (n + 2) a
        = threadAcc (fun j _ => some (f j)) (i + 1) (n + 1) (some (f i)) := rfl
    rw [h1, ih (i + 1) (some (f i)), show i + 1 + n = i + (n + 1) by omega]

theorem threadAcc_succ_back {α : Type} (g : Nat → α → α) :
    ∀ fuel i a, threadAcc g i (fuel + 1) a = g (i + fuel) (threadAcc g i fuel a) := by
  intro fuel
  induction fuel with
  | zero => intro i a; simp [threadAcc]
  | succ n ih =>
    intro i a
    have h1 : threadAcc g i (n + 2) a = threadAcc g (i + 1) (n + 1) (g i a) := rfl
    have h2 : threadAcc g i (n + 1) a = threadAcc g (i + 1) n (g i a) := rfl
    rw [h1, ih (i + 1) (g i a), h2, show i + 1 + n = i + (n + 1) by omega]

theorem retryLoop_allFail (rc : Nat) (attempt : Nat → AttemptRes)
    (mkFail : Option String → Option String → ScrapeResult) :
    ∀ fuel i le h sl, (∀ j, j < fuel → isFailedAttempt (attempt (i + j)) = true) →
      retryLoop rc attempt mkFail i fuel le h sl =
        { result := mkFail (lastErrAcc attempt i fuel le) (htmlAcc attempt i fuel h)
          sleeps := (sleepAcc rc i fuel sl).reverse
          attemptsMade := i + fuel } := by
  intro fuel
  induction fuel with
  | zero =>
    intro i le h sl _
    simp [retryLoop, lastErrAcc, htmlAcc, sleepAcc, threadAcc]
  | succ n ih =>
    intro i le h sl hfail
    have h0 := hfail 0 (by omega)
    rw [show i + 0 = i by omega] at h0
    cases ha : attempt i with
    | done r => rw [ha] at h0; simp [isFailedAttempt] at h0
    | failed msg upd =>
      have hstep : retryLoop rc attempt mkFail i (n + 1) le h sl
          = retryLoop rc attempt mkFail (i + 1) n (some msg) (updateHtml upd h)
              (if i < rc then 2 ^ i :: sl else sl) := by
        simp [retryLoop, ha]
      have hshift : ∀ j, j < n → isFailedAttempt (attempt (i + 1 + j)) = true := by
        intro j hj
        have := hfail (j + 1) (by omega)
        rwa [show i + (j + 1) = i + 1 + j by omega] at this
      rw [hstep, ih (i + 1) (some msg) (updateHtml upd h)
        (if i < rc then 2 ^ i :: sl else sl) hshift]
      have hle : lastErrAcc attempt (i + 1) n (some msg) = lastErrAcc attempt i (n + 1) le := by
        simp only [lastErrAcc, threadAcc, ha, failMsg]
      have hh : htmlAcc attempt (i + 1) n (updateHtml upd h) = htmlAcc attempt i (n + 1) h := by
        simp only [htmlAcc, threadAcc, ha, failUpd]
      have hsl : sleepAcc rc (i + 1) n (if i < rc then 2 ^ i :: sl else sl)
          = sleepAcc rc i (n + 1) sl := by
        simp only [sleepAcc, threadAcc]
      rw [hle, hh, hsl, show i + 1 + n = i + (n + 1) by omega]

theorem retryLoop_succAt (rc : Nat) (attempt : Nat → AttemptRes)
    (mkFail : Option String → Option String → ScrapeResult) :
    ∀ k fuel i le h sl r, k < fuel →
      (∀ j, j < k → isFailedAttempt (attempt (i + j)) = true) →
      attempt (i + k) = .done r →
      retryLoop rc attempt mkFail i fuel le h sl =
        { result := r, sleeps := (sleepAcc rc i k sl).reverse, attemptsMade := i + k + 1 } := by
  intro k
  induction k with
  | zero =>
    intro fuel i le h sl r hk _ hdone
    rw [show i + 0 = i by omega] at hdone
    cases fuel with
    | zero => omega
    | succ n =>
      simp [retryLoop, hdone, sleepAcc, threadAcc]
  | succ k ih =>
    intro fuel i le h sl r hk hfail hdone
    have h0 := hfail 0 (by omega)
    rw [show i + 0 = i by omega] at h0
    cases fuel with
    | zero => omega
    | succ n =>
      cases ha : attempt i with
      | done r0 => rw [ha] at h0; simp [isFailedAttempt] at h0
      | failed msg upd =>
        have hstep : retryLoop rc attempt mkFail i (n + 1) le h sl
            = retryLoop rc attempt mkFail (i + 1) n (some msg) (updateHtml upd h)
                (if i < rc then 2 ^ i :: sl else sl) := by
          simp [retryLoop, ha]
        have hshift : ∀ j, j < k → isFailedAttempt (attempt (i + 1 + j)) = true := by
          intro j hj
          have := hfail (j + 1) (by omega)
          rwa [show i + (j + 1) = i + 1 + j by omega] at this
        have hdone1 : attempt (i + 1 + k) = .done r := by
          rwa [show i + 1 + k = i + (k + 1) by omega]
        rw [hstep, ih n (i + 1) (some msg) (updateHtml upd h)
          (if i < rc then 2 ^ i :: sl else sl) r (by omega) hshift hdone1]
        have hsl : sleepAcc rc (i + 1) k (if i < rc then 2 ^ i :: sl else sl)
            = sleepAcc rc i (k + 1) sl := by
          simp only [sleepAcc, threadAcc]
        rw [hsl, show i + 1 + k + 1 = i + (k + 1) + 1 by omega]

theorem retryLoop_attempts_ge (rc : Nat) (attempt : Nat → AttemptRes)
    (mkFail : Option String → Option String → ScrapeResult) :
    ∀ fuel i le h sl,
      i + min fuel 1 ≤ (retryLoop rc attempt mkFail i fuel le h sl).attemptsMade := by
  intro fuel
  induction fuel with
  | zero => intro i le h sl; simp [retryLoop]
  | succ n ih =>
    intro i le h sl
    cases ha : attempt i with
    | done r => simp only [retryLoop, ha]; omega
    | failed msg upd =>
      have hstep : retryLoop rc attempt mkFail i (n + 1) le h sl
          = retryLoop rc attempt mkFail (i + 1) n (some msg) (updateHtml upd h)
              (if i < rc then 2 ^ i :: sl else sl) := by
        simp [retryLoop, ha]
      rw [hstep]
      have := ih (i + 1) (some msg) (updateHtml upd h) (if i < rc then 2 ^ i :: sl else sl)
      omega

theorem retryLoop_result_cases (rc : Nat) (attempt : Nat → AttemptRes)
    (mkFail : Option String → Option String → ScrapeResult) :
    ∀ fuel i le h sl,
      (∃ le1 h1, (retryLoop rc attempt mkFail i fuel le h sl).result = mkFail le1 h1)
      ∨ (∃ j r, attempt j = .done r
          ∧ (retryLoop rc attempt mkFail i fuel le h sl).result = r) := by
  intro fuel
  induction fuel with
  | zero => intro i le h sl; exact Or.inl ⟨le, h, rfl⟩
  | succ n ih =>
    intro i le h sl
    cases ha : attempt i with
    | done r =>
      refine Or.inr ⟨i, r, ha, ?_⟩
      simp [retryLoop, ha]
    | failed msg upd =>
      have hstep : retryLoop rc attempt mkFail i (n + 1) le h sl
          = retryLoop rc attempt mkFail (i + 1) n (some msg) (updateHtml upd h)
              (if i < rc then 2 ^ i :: sl else sl) := by
        simp [retryLoop, ha]
      rw [hstep]
      exact ih (i + 1) (some msg) (updateHtml upd h) (if i < rc then 2 ^ i :: sl else sl)

/-! ## Claim C1 — proxy pool recovery in `get_next_proxy` -/

theorem healthy_proxies_nil_iff (m : ProxyManagerState) :
    healthy_proxies m = [] ↔ ∀ s ∈ m.proxies, s.is_healthy = false := by
  simp [healthy_proxies, List.map_eq_nil_iff, List.filter_eq_nil_iff]

/-- C1 counterexample: a one-proxy pool driven purely through the public
API (`mkProxyManager`, six `mark_failure` calls with one `get_next_proxy`
recovery in between) in which every proxy is unhealthy, yet
`get_next_proxy` returns `none` — refuting that a non-empty all-unhealthy
pool is always reset and served, and that `none` is returned only for an
empty pool. -/
theorem C1_counterexample :
    (get_next_proxy c1manager).1 = none
    ∧ c1manager.proxies ≠ []
    ∧ c1manager.proxies.all (fun s => !s.is_healthy) = true := by
  decide

/-- C1 (amended): `get_next_proxy` returns a proxy exactly when some pool
entry is healthy or has `fail_count` below `2 * max_fail_count` (the
recovery reset revives only those); for a non-empty pool in which every
entry is unhealthy with `fail_count ≥ 2 * max_fail_count` it still returns
`none`. -/
theorem C1_amended_next_proxy (m : ProxyManagerState) :
    ((get_next_proxy m).1).isSome = true ↔
      ∃ s ∈ m.proxies, s.is_healthy = true ∨ s.fail_count < m.max_fail_count * 2 := by
  simp only [get_next_proxy]
  cases hH : healthy_proxies m with
  | cons u us =>
    have hmem : u ∈ healthy_proxies m := by rw [hH]; exact List.mem_cons_self u us
    simp only [healthy_proxies, List.mem_map, List.mem_filter] at hmem
    obtain ⟨s, ⟨hs, hh⟩, _⟩ := hmem
    simp only [List.isEmpty_cons, Bool.false_eq_true, if_false]
    rw [hH]
    simp only [List.isEmpty_cons, Bool.false_eq_true, if_false]
    have hlt : (m.current_index + 1) % (u :: us).length < (u :: us).length :=
      Nat.mod_lt _ (by simp)
    simp only [List.get?_eq_getElem?, List.getElem?_eq_getElem hlt, Option.isSome_some,
      true_iff]
    exact ⟨s, hs, Or.inl hh⟩
  | nil =>
    have hAll : ∀ s ∈ m.proxies, s.is_healthy = false :=
      (healthy_proxies_nil_iff m).1 hH
    simp only [List.isEmpty_nil, if_true]
    cases hH1 : healthy_proxies (resetRecoverable m) with
    | nil =>
      simp only [List.isEmpty_nil, if_true, Option.isSome_none, Bool.false_eq_true, false_iff]
      rintro ⟨s, hs, hcase⟩
      rcases hcase with hhealthy | hfail
      · rw [hAll s hs] at hhealthy
        exact Bool.false_ne_true hhealthy
      · have hmem : ({ s with is_healthy := true } : ProxyStatus)
            ∈ (resetRecoverable m).proxies := by
          simp only [resetRecoverable]
          refine List.mem_map.2 ⟨s, hs, ?_⟩
          rw [if_pos hfail]
        have hmem1 : ({ s with is_healthy := true } : ProxyStatus).url
            ∈ healthy_proxies (resetRecoverable m) := by
          simp only [healthy_proxies, List.mem_map, List.mem_filter]
          exact ⟨{ s with is_healthy := true }, ⟨hmem, rfl⟩, rfl⟩
        rw [hH1] at hmem1
        exact (List.not_mem_nil _ hmem1).elim
    | cons u us =>
      have hmem : u ∈ healthy_proxies (resetRecoverable m) := by
        rw [hH1]; exact List.mem_cons_self u us
      simp only [healthy_proxies, resetRecoverable, List.mem_map, List.mem_filter] at hmem
      obtain ⟨t, ⟨htmem, hth⟩, _⟩ := hmem
      obtain ⟨s, hs, hfs⟩ := htmem
      have hlt : ((resetRecoverable m).current_index + 1) % (u :: us).length
          < (u :: us).length := Nat.mod_lt _ (by simp)
      simp only [List.isEmpty_cons, Bool.false_eq_true, if_false, List.get?_eq_getElem?,
        List.getElem?_eq_getElem hlt, Option.isSome_some, true_iff]
      refine ⟨s, hs, ?_⟩
      by_cases hf : s.fail_count < m.max_fail_count * 2
      · exact Or.inr hf
      · rw [if_neg hf] at hfs
        rw [← hfs] at hth
        rw [hAll s hs] at hth
        exact (Bool.false_ne_true hth).elim

/-! ## Claim C10 — `mark_success` / `mark_failure` on an unknown proxy -/

/-- C10: marking success or failure for an address that is not a pool key
leaves the whole manager state — every record and the rotation index —
unchanged. -/
theorem C10_mark_unknown_noop (m : ProxyManagerState) (u : String) (e : Option String)
    (h : ∀ s ∈ m.proxies, s.url ≠ u) :
    mark_success m u = m ∧ mark_failure m u e = m := by
  have hany : m.proxies.any (fun s => s.url == u) = false := by
    rw [Bool.eq_false_iff]
    intro hc
    rw [List.any_eq_true] at hc
    obtain ⟨s, hs, hp⟩ := hc
    exact h s hs (by simpa using hp)
  constructor
  · simp [mark_success, hany]
  · simp [mark_failure, hany]

/-- C10 witness: a fresh one-proxy pool is untouched by marking an address
that was never added. -/
theorem C10_mark_unknown_noop_witness :
    mark_success (mkProxyManager ["http://p:1"] 3) "http://q:2" = mkProxyManager ["http://p:1"] 3
    ∧ mark_failure (mkProxyManager ["http://p:1"] 3) "http://q:2" (some ("boom"))
        = mkProxyManager ["http://p:1"] 3 :=
  C10_mark_unknown_noop (mkProxyManager ["http://p:1"] 3) "http://q:2" (some ("boom"))
    (by decide)

/-! ## Orchestrator loop facts (claims C2 and C9) -/

theorem queueLink_fold_frame (ls : List String) :
    ∀ st : OrchSt,
      (ls.foldl queueLink st).pagesScraped = st.pagesScraped
      ∧ (ls.foldl queueLink st).fetched = st.fetched
      ∧ (ls.foldl queueLink st).results = st.results := by
  induction ls with
  | nil => intro st; exact ⟨rfl, rfl, rfl⟩
  | cons x xs ih =>
    intro st
    rw [List.foldl_cons]
    have hx : (queueLink st x).pagesScraped = st.pagesScraped
        ∧ (queueLink st x).fetched = st.fetched
        ∧ (queueLink st x).results = st.results := by
      by_cases hmem : x ∈ st.seenUrls
      · rw [queueLink, if_pos hmem]
        exact ⟨rfl, rfl, rfl⟩
      · rw [queueLink, if_neg hmem]
        exact ⟨rfl, rfl, rfl⟩
    have hrec := ih (queueLink st x)
    exact ⟨hrec.1.trans hx.1, hrec.2.1.trans hx.2.1, hrec.2.2.trans hx.2.2⟩

theorem afterFetch_frame (crawl : Bool) (links : String → String → List String)
    (st : OrchSt) (url : String) (r : ScrapeResult) :
    (afterFetch crawl links st url r).pagesScraped = st.pagesScraped
    ∧ (afterFetch crawl links st url r).fetched = st.fetched := by
  cases crawl with
  | false => exact ⟨rfl, rfl⟩
  | true =>
    simp only [afterFetch, if_true]
    cases hr : r.html with
    | none => exact ⟨rfl, rfl⟩
    | some html =>
      dsimp only
      by_cases hh : (html == "") = true
      · rw [if_pos hh]
        exact ⟨rfl, rfl⟩
      · rw [if_neg hh]
        have := queueLink_fold_frame (dedupFirst (links html url))
          { st with results := st.results ++ [r] }
        exact ⟨this.1, this.2.1⟩

theorem runLoop_pages_le (crawl : Bool) (mp : Nat) (world : String → ScrapeResult)
    (react : String → Decision) (links : String → String → List String) :
    ∀ fuel st, (runLoop crawl mp world react links fuel st).pagesScraped
      ≤ st.pagesScraped + fuel := by
  intro fuel
  induction fuel with
  | zero => intro st; simp [runLoop]
  | succ n ih =>
    intro st
    cases hq : st.urlQueue with
    | nil => simp [runLoop, hq]
    | cons url rest =>
      have hps : (popStep st url rest).pagesScraped = st.pagesScraped + 1 := rfl
      have hframe := afterFetch_frame crawl links (popStep st url rest) url (world url)
      have hrec := ih (afterFetch crawl links (popStep st url rest) url (world url))
      rw [hframe.1, hps] at hrec
      simp only [runLoop, hq]
      by_cases hp : (!(world url).success && should_pause_on_error (world url)) = true
      · rw [if_pos hp]
        by_cases hr : react url = Decision.stop
        · rw [if_pos hr, hps]
          omega
        · rw [if_neg hr]
          omega
      · rw [if_neg hp]
        omega

theorem runLoop_fetched_le (crawl : Bool) (mp : Nat) (world : String → ScrapeResult)
    (react : String → Decision) (links : String → String → List String) :
    ∀ fuel st, (runLoop crawl mp world react links fuel st).fetched.length
      ≤ st.fetched.length + fuel := by
  intro fuel
  induction fuel with
  | zero => intro st; simp [runLoop]
  | succ n ih =>
    intro st
    cases hq : st.urlQueue with
    | nil => simp [runLoop, hq]
    | cons url rest =>
      have hfe : (popStep st url rest).fetched = st.fetched ++ [url] := rfl
      have hframe := afterFetch_frame crawl links (popStep st url rest) url (world url)
      have hrec := ih (afterFetch crawl links (popStep st url rest) url (world url))
      rw [hframe.2, hfe] at hrec
      rw [List.length_append] at hrec
      simp only [List.length_cons, List.length_nil] at hrec
      simp only [runLoop, hq]
      by_cases hp : (!(world url).success && should_pause_on_error (world url)) = true
      · rw [if_pos hp]
        by_cases hr : react url = Decision.stop
        · rw [if_pos hr, hfe, List.length_append]
          simp only [List.length_cons, List.length_nil]
          omega
        · rw [if_neg hr]
          omega
      · rw [if_neg hp]
        omega

/-! ## Claim C9 — the page budget bounds every run -/

/-- C9: over a whole orchestrator run, the page counter and the number of
urls popped for fetching never exceed `maxPages`; with `maxPages = 0` the
loop body never executes, so no url is popped, no fetch happens and no
result is produced. -/
theorem C9_page_budget (crawl : Bool) (mp : Nat) (urls : List String)
    (world : String → ScrapeResult) (react : String → Decision)
    (links : String → String → List String) :
    (runOrchestrator crawl mp urls world react links).pagesScraped ≤ mp
    ∧ (runOrchestrator crawl mp urls world react links).fetched.length ≤ mp
    ∧ runOrchestrator crawl 0 urls world react links = initOrchSt urls := by
  refine ⟨?_, ?_, rfl⟩
  · have := runLoop_pages_le crawl mp world react links mp (initOrchSt urls)
    simpa [initOrchSt, runOrchestrator] using this
  · have := runLoop_fetched_le crawl mp world react links mp (initOrchSt urls)
    simpa [initOrchSt, runOrchestrator] using this

/-! ## Claim C2 — `skip_current` and the pause protocol -/

/-- C2 counterexample: a run that pauses on an HTTP 404 failure and is
resumed with `skip_current()` still appends the failed result to the
result stream, refuting that the current result is discarded. -/
theorem C2_counterexample :
    (runOrchestrator false 1 [c2url] (fun _ => c2result) (fun _ => Decision.skipCurrent)
        (fun _ _ => [])).results = [c2result]
    ∧ should_pause_on_error c2result = true := by
  decide

/-- C2 (amended): after a pause caused by a fetch failure matching the
pause predicate, `skip_current()` returns the run to Running and the loop
continues with the rest of the queue exactly as `resume()` would — the
current url's failed result IS appended to the result stream (so it counts
toward the run total), though being unsuccessful it adds nothing to the
success count. -/
theorem C2_skip_keeps_result (crawl : Bool) (mp : Nat) (world : String → ScrapeResult)
    (react : String → Decision) (links : String → String → List String)
    (fuel : Nat) (st : OrchSt) (url : String) (rest : List String)
    (hq : st.urlQueue = url :: rest)
    (hfail : (world url).success = false)
    (hpause : should_pause_on_error (world url) = true)
    (hskip : react url = Decision.skipCurrent) :
    runLoop crawl mp world react links (fuel + 1) st
      = runLoop crawl mp world react links fuel
          (afterFetch crawl links (popStep st url rest) url (world url))
    ∧ (afterFetch crawl links (popStep st url rest) url (world url)).results
        = st.results ++ [world url]
    ∧ successCount (st.results ++ [world url]) = successCount st.results := by
  refine ⟨?_, ?_, ?_⟩
  · have hcond : (!(world url).success && should_pause_on_error (world url)) = true := by
      rw [hfail, hpause]
      rfl
    have hstop : ¬(react url = Decision.stop) := by
      rw [hskip]
      intro hcontra
      exact Decision.noConfusion hcontra
    simp only [runLoop, hq]
    rw [if_pos hcond, if_neg hstop]
  · have hres : (popStep st url rest).results = st.results := rfl
    cases crawl with
    | false =>
      show ((popStep st url rest).results ++ [world url]) = st.results ++ [world url]
      rw [hres]
    | true =>
      simp only [afterFetch, if_true]
      cases hr : (world url).html with
      | none =>
        show ((popStep st url rest).results ++ [world url]) = st.results ++ [world url]
        rw [hres]
      | some html =>
        dsimp only
        by_cases hh : (html == "") = true
        · rw [if_pos hh]
          show ((popStep st url rest).results ++ [world url]) = st.results ++ [world url]
          rw [hres]
        · rw [if_neg hh]
          rw [(queueLink_fold_frame (dedupFirst (links html url))
            { popStep st url rest with results := (popStep st url rest).results ++ [world url] }).2.2]
          show ((popStep st url rest).results ++ [world url]) = st.results ++ [world url]
          rw [hres]
  · simp [successCount, List.filter_append, hfail]

/-- C2 witness: the amended step equation instantiated on the concrete
paused-then-skipped 404 run. -/
theorem C2_skip_keeps_result_witness :
    (runLoop false 1 (fun _ => c2result) (fun _ => Decision.skipCurrent) (fun _ _ => []) 1
      (initOrchSt [c2url])).results = [c2result] := by
  have h := C2_skip_keeps_result false 1 (fun _ => c2result) (fun _ => Decision.skipCurrent)
    (fun _ _ => []) 0 (initOrchSt [c2url]) c2url [] rfl rfl (by decide) rfl
  rw [h.1]
  decide

/-! ## Claim C8 — `scrape_batch` ordering and isolation -/

theorem scrapeBatchGo_spec (runOne : Nat → String → Except String ScrapeResult) :
    ∀ (l : List String) (i0 : Nat),
      (scrapeBatchGo runOne i0 l).length = l.length
      ∧ ∀ i (h : i < l.length),
          (scrapeBatchGo runOne i0 l).get? i =
            some (match runOne (i0 + i) (l.get ⟨i, h⟩) with
                  | Except.ok r => r
                  | Except.error e =>
                    { url := l.get ⟨i, h⟩, success := false, data := [], error := some e }) := by
  intro l
  induction l with
  | nil =>
    intro i0
    refine ⟨rfl, ?_⟩
    intro i h
    exact absurd h (by simp)
  | cons url rest ih =>
    intro i0
    refine ⟨?_, ?_⟩
    · simp only [scrapeBatchGo, List.length_cons, (ih (i0 + 1)).1]
    · intro i h
      cases i with
      | zero =>
        show some _ = some _
        rw [show i0 + 0 = i0 by omega]
        rfl
      | succ n =>
        have hn : n < rest.length := by
          simpa using h
        have hrec := (ih (i0 + 1)).2 n hn
        show (scrapeBatchGo runOne (i0 + 1) rest).get? n = _
        rw [hrec, show i0 + 1 + n = i0 + (n + 1) by omega]
        rfl

/-- C8: `scrape_batch` returns exactly one result per input url, in input
order; the result at position `i` is determined solely by that url's own
task outcome, with a raised exception converted in place into a failed
result for that url. -/
theorem C8_batch_order (urls : List String) (runOne : Nat → String → Except String ScrapeResult) :
    (scrape_batch urls runOne).length = urls.length
    ∧ ∀ i (h : i < urls.length),
        (scrape_batch urls runOne).get? i =
          some (match runOne i (urls.get ⟨i, h⟩) with
                | Except.ok r => r
                | Except.error e =>
                  { url := urls.get ⟨i, h⟩, success := false, data := [], error := some e }) := by
  have h := scrapeBatchGo_spec runOne urls 0
  refine ⟨h.1, ?_⟩
  intro i hi
  have := h.2 i hi
  rwa [show 0 + i = i by omega] at this

/-- C8 witness: a two-url batch whose first task raises still yields two
results in order, driven through the theorem. -/
theorem C8_batch_order_witness :
    (scrape_batch ["http://a.example", "http://b.example"] c8run).length = 2
    ∧ (scrape_batch ["http://a.example", "http://b.example"] c8run).get? 0
        = some { url := "http://a.example", success := false, data := [], error := some ("boom") } := by
  have h := C8_batch_order ["http://a.example", "http://b.example"] c8run
  refine ⟨h.1, ?_⟩
  have h0 := h.2 0 (by decide)
  rw [h0]
  rfl

/-! ## Claim C6 — the rate-limit delay -/

/-- C6: with no error streak (or adaptive mode off) the delay is the
uniform draw from `[min_delay, max_delay]`; with adaptive mode on and a
positive streak it is exactly `min(max_delay * 2 ^ streak, 60)`. -/
theorem C6_rate_limit_delay :
    (∀ (cfg : RateLimitConfig) (n : Nat) (r : ℚ),
      (cfg.adaptive = false ∨ n = 0) → cfg.min_delay ≤ cfg.max_delay →
      0 ≤ r → r ≤ 1 →
      cfg.min_delay ≤ rateLimitDelay cfg n r ∧ rateLimitDelay cfg n r ≤ cfg.max_delay)
    ∧ (∀ (cfg : RateLimitConfig) (n : Nat) (r : ℚ),
      cfg.adaptive = true → 0 < n →
      rateLimitDelay cfg n r = min (cfg.max_delay * 2 ^ n) 60) := by
  constructor
  · intro cfg n r hoff hle hr0 hr1
    have hcond : ¬(cfg.adaptive = true ∧ 0 < n) := by
      rcases hoff with hadapt | hn
      · intro hc
        rw [hadapt] at hc
        exact Bool.false_ne_true hc.1
      · intro hc
        omega
    rw [rateLimitDelay, if_neg hcond]
    constructor
    · nlinarith [mul_nonneg (sub_nonneg.mpr hle) hr0]
    · nlinarith [mul_nonneg (sub_nonneg.mpr hle) (sub_nonneg.mpr hr1)]
  · intro cfg n r hadapt hn
    rw [rateLimitDelay, if_pos ⟨hadapt, hn⟩]

/-- C6 witness: the default configuration evaluated at streak 0 with draw
one half, and at streak 2 in adaptive mode. -/
theorem C6_rate_limit_delay_witness :
    ((({} : RateLimitConfig).min_delay ≤ rateLimitDelay {} 0 (1 / 2)
        ∧ rateLimitDelay {} 0 (1 / 2) ≤ ({} : RateLimitConfig).max_delay))
    ∧ rateLimitDelay {} 2 (1 / 2) = min (({} : RateLimitConfig).max_delay * 2 ^ 2) 60 := by
  constructor
  · exact C6_rate_limit_delay.1 {} 0 (1 / 2) (Or.inr rfl) (by norm_num [RateLimitConfig.min_delay])
      (by norm_num) (by norm_num)
  · exact C6_rate_limit_delay.2 {} 2 (1 / 2) rfl (by norm_num)

/-! ## Attempt-level facts for the two engines -/

theorem staticAttempt_isFailed (cfg : StaticCfg) (url : String) (fields : List SelectorField)
    (query : String → String → Option String) (outcome : Nat → StaticOutcome)
    (seenHashes : List (List (String × Option String))) (j : Nat) :
    isFailedAttempt (staticAttempt cfg url fields query outcome seenHashes j)
      = staticIsFail (outcome j) := by
  cases ho : outcome j with
  | ok html status =>
    simp only [staticAttempt, ho, staticIsFail]
    split
    · rfl
    · rfl
  | httpError code reason => simp [staticAttempt, ho, isFailedAttempt, staticIsFail]
  | requestError msg => simp [staticAttempt, ho, isFailedAttempt, staticIsFail]
  | unexpectedError h msg => simp [staticAttempt, ho, isFailedAttempt, staticIsFail]

theorem staticAttempt_failMsg (cfg : StaticCfg) (url : String) (fields : List SelectorField)
    (query : String → String → Option String) (outcome : Nat → StaticOutcome)
    (seenHashes : List (List (String × Option String))) (j : Nat) :
    failMsg (staticAttempt cfg url fields query outcome seenHashes j)
      = staticErrorMsg (outcome j) := by
  cases ho : outcome j with
  | ok html status =>
    simp only [staticAttempt, ho, staticErrorMsg]
    split
    · rfl
    · rfl
  | httpError code reason => simp [staticAttempt, ho, failMsg]
  | requestError msg => simp [staticAttempt, ho, failMsg]
  | unexpectedError h msg => simp [staticAttempt, ho, failMsg]

theorem staticAttempt_failUpd (cfg : StaticCfg) (url : String) (fields : List SelectorField)
    (query : String → String → Option String) (outcome : Nat → StaticOutcome)
    (seenHashes : List (List (String × Option String))) (j : Nat) :
    failUpd (staticAttempt cfg url fields query outcome seenHashes j)
      = staticHtmlUpd (outcome j) := by
  cases ho : outcome j with
  | ok html status =>
    simp only [staticAttempt, ho, staticHtmlUpd]
    split
    · rfl
    · rfl
  | httpError code reason => simp [staticAttempt, ho, failUpd, staticHtmlUpd]
  | requestError msg => simp [staticAttempt, ho, failUpd, staticHtmlUpd]
  | unexpectedError h msg => simp [staticAttempt, ho, failUpd, staticHtmlUpd]

theorem jsAttempt_isFailed (jcfg : JsCfg) (url : String) (fields : List SelectorField)
    (query : String → String → Option String) (outcome : Nat → JsOutcome)
    (seenHashes : List (List (String × Option String))) (j : Nat) :
    isFailedAttempt (jsAttempt jcfg url fields query outcome seenHashes j)
      = jsIsFail (outcome j) := by
  cases ho : outcome j with
  | ok html status =>
    simp only [jsAttempt, ho, jsIsFail]
    split
    · rfl
    · rfl
  | fail h msg => simp [jsAttempt, ho, isFailedAttempt, jsIsFail]

theorem jsAttempt_failMsg (jcfg : JsCfg) (url : String) (fields : List SelectorField)
    (query : String → String → Option String) (outcome : Nat → JsOutcome)
    (seenHashes : List (List (String × Option String))) (j : Nat) :
    failMsg (jsAttempt jcfg url fields query outcome seenHashes j) = jsErrorMsg (outcome j) := by
  cases ho : outcome j with
  | ok html status =>
    simp only [jsAttempt, ho, jsErrorMsg]
    split
    · rfl
    · rfl
  | fail h msg => simp [jsAttempt, ho, failMsg, jsErrorMsg]

theorem jsAttempt_failUpd (jcfg : JsCfg) (url : String) (fields : List SelectorField)
    (query : String → String → Option String) (outcome : Nat → JsOutcome)
    (seenHashes : List (List (String × Option String))) (j : Nat) :
    failUpd (jsAttempt jcfg url fields query outcome seenHashes j) = jsHtmlUpd (outcome j) := by
  cases ho : outcome j with
  | ok html status =>
    simp only [jsAttempt, ho, jsHtmlUpd]
    split
    · rfl
    · rfl
  | fail h msg => simp [jsAttempt, ho, failUpd, jsHtmlUpd]

/-! ## Claim C4 — robots.txt enforcement differs by engine -/

/-- C4: with robots respected and the url disallowed, the static engine's
`scrape` returns a failed robots-blocked result without making a single
fetch attempt (and without sleeping); the Playwright engine's
`check_robots` yields at most a warning (here: exactly a warning, leaving
its cache untouched, when the cache marks the origin disallowed) and its
`scrape` — which never consults robots at all — still performs at least
one fetch attempt. -/
theorem C4_robots_enforcement :
    (∀ (cfg : StaticCfg) (canFetch : String → Bool) (url path : String)
        (fields : List SelectorField) (query : String → String → Option String)
        (outcome : Nat → StaticOutcome) (seenHashes : List (List (String × Option String))),
      cfg.respect_robots = true → canFetch url = false →
      (staticScrape cfg (some canFetch) url path fields query outcome seenHashes).result.success
          = false
      ∧ (staticScrape cfg (some canFetch) url path fields query outcome seenHashes).result.error
          = some ("Blocked by robots.txt: "
              ++ ("URL path (" ++ path ++ ") is disallowed by robots.txt"))
      ∧ (staticScrape cfg (some canFetch) url path fields query outcome seenHashes).attemptsMade
          = 0
      ∧ (staticScrape cfg (some canFetch) url path fields query outcome seenHashes).sleeps = [])
    ∧ (∀ (cache : List (String × Bool)) (baseUrl path url : String),
      assocFind cache baseUrl = some false →
      (jsCheckRobots true cache baseUrl path url).1
          = some { url := url, disallowed_paths := [path]
                   message := "Path may be restricted by robots.txt" }
      ∧ (jsCheckRobots true cache baseUrl path url).2 = cache)
    ∧ (∀ (jcfg : JsCfg) (url : String) (fields : List SelectorField)
        (query : String → String → Option String) (outcome : Nat → JsOutcome)
        (seenHashes : List (List (String × Option String))),
      1 ≤ (jsScrape jcfg url fields query outcome seenHashes).attemptsMade) := by
  refine ⟨?_, ?_, ?_⟩
  · intro cfg canFetch url path fields query outcome seenHashes hrespect hfetch
    have hrob : staticCheckRobots cfg.respect_robots (some canFetch) url path
        = some { url := url, disallowed_paths := [path]
                 message := "URL path (" ++ path ++ ") is disallowed by robots.txt" } := by
      rw [staticCheckRobots, if_neg (by rw [hrespect]; exact fun hc => Bool.noConfusion hc)]
      rw [if_neg (by rw [hfetch]; exact fun hc => Bool.noConfusion hc)]
    have hscr : staticScrape cfg (some canFetch) url path fields query outcome seenHashes
        = { result := { url := url, success := false, data := []
                        error := some ("Blocked by robots.txt: "
                          ++ ("URL path (" ++ path ++ ") is disallowed by robots.txt")) }
            sleeps := [], attemptsMade := 0 } := by
      rw [staticScrape, hrob]
    rw [hscr]
    exact ⟨rfl, rfl, rfl, rfl⟩
  · intro cache baseUrl path url hfound
    rw [jsCheckRobots, if_neg (fun hc => Bool.noConfusion hc), hfound]
    exact ⟨rfl, rfl⟩
  · intro jcfg url fields query outcome seenHashes
    have := retryLoop_attempts_ge jcfg.retry_count
      (jsAttempt jcfg url fields query outcome seenHashes) (jsMkFail jcfg url)
      (jcfg.retry_count + 1) 0 none none []
    rw [jsScrape]
    omega

/-- C4 witness: the three conjuncts instantiated on a concrete disallowed
origin. -/
theorem C4_robots_enforcement_witness :
    (staticScrape {} (some (fun _ => false)) "http://h.example/x" "/x" [] (fun _ _ => none)
        (fun _ => StaticOutcome.requestError ("unused")) []).attemptsMade = 0
    ∧ (jsCheckRobots true [("http://h.example", false)] "http://h.example" "/x"
          "http://h.example/x").1
        = some { url := "http://h.example/x", disallowed_paths := ["/x"]
                 message := "Path may be restricted by robots.txt" }
    ∧ 1 ≤ (jsScrape {} "http://h.example/x" [] (fun _ _ => none)
          (fun _ => JsOutcome.fail none ("err")) []).attemptsMade := by
  refine ⟨?_, ?_, ?_⟩
  · exact (C4_robots_enforcement.1 {} (fun _ => false) "http://h.example/x" "/x" []
      (fun _ _ => none) (fun _ => StaticOutcome.requestError ("unused")) [] rfl rfl).2.2.1
  · exact (C4_robots_enforcement.2.1 [("http://h.example", false)] "http://h.example" "/x"
      "http://h.example/x" (by decide)).1
  · exact C4_robots_enforcement.2.2 {} "http://h.example/x" [] (fun _ _ => none)
      (fun _ => JsOutcome.fail none ("err")) []

/-! ## Claim C5 — the failed result after exhausting retries -/

/-- C5 counterexample: the static engine, configured NOT to save html on
error, still attaches the last-fetched page content to the failed result
(the source comment reads `Always include for crawling`). -/
theorem C5_counterexample :
    (staticScrape c5cfg none ("http://x.example") "/p" [] (fun _ _ => none)
        (fun _ => StaticOutcome.unexpectedError (some ("<html>partial</html>")) "parse failed")
        []).result.html
      = some ("<html>partial</html>")
    ∧ c5cfg.save_html_on_error = false := by
  decide

/-- C5 (amended): when every attempt fails, both engines return a failed
result carrying the message of the last attempt's error; the Playwright
engine attaches the last-fetched page content only when
`save_html_on_error` is set, while the static engine attaches it
unconditionally — its failed result is entirely independent of the
`save_html_on_error` flag. -/
theorem C5_retry_exhaustion :
    (∀ (cfg : StaticCfg) (robotsFetch : Option (String → Bool)) (url path : String)
        (fields : List SelectorField) (query : String → String → Option String)
        (outcome : Nat → StaticOutcome) (seenHashes : List (List (String × Option String))),
      staticCheckRobots cfg.respect_robots robotsFetch url path = none →
      (∀ j, j ≤ cfg.retry_count → staticIsFail (outcome j) = true) →
      (staticScrape cfg robotsFetch url path fields query outcome seenHashes).result.success
          = false
      ∧ (staticScrape cfg robotsFetch url path fields query outcome seenHashes).result.error
          = some (staticErrorMsg (outcome cfg.retry_count))
      ∧ (staticScrape cfg robotsFetch url path fields query outcome seenHashes).result.html
          = staticHtmlAcross outcome (cfg.retry_count + 1)
      ∧ staticScrape { cfg with save_html_on_error := true } robotsFetch url path fields query
            outcome seenHashes
          = staticScrape { cfg with save_html_on_error := false } robotsFetch url path fields
            query outcome seenHashes)
    ∧ (∀ (jcfg : JsCfg) (url : String) (fields : List SelectorField)
        (query : String → String → Option String) (outcome : Nat → JsOutcome)
        (seenHashes : List (List (String × Option String))),
      (∀ j, j ≤ jcfg.retry_count → jsIsFail (outcome j) = true) →
      (jsScrape jcfg url fields query outcome seenHashes).result.success = false
      ∧ (jsScrape jcfg url fields query outcome seenHashes).result.error
          = some (jsErrorMsg (outcome jcfg.retry_count))
      ∧ (jsScrape jcfg url fields query outcome seenHashes).result.html
          = (if jcfg.save_html_on_error = true
             then jsHtmlAcross outcome (jcfg.retry_count + 1) else none)) := by
  constructor
  · intro cfg robotsFetch url path fields query outcome seenHashes hrob hfail
    have hallfail : ∀ j, j < cfg.retry_count + 1 →
        isFailedAttempt (staticAttempt cfg url fields query outcome seenHashes (0 + j))
          = true := by
      intro j hj
      rw [show 0 + j = j by omega, staticAttempt_isFailed]
      exact hfail j (by omega)
    have hloop := retryLoop_allFail cfg.retry_count
      (staticAttempt cfg url fields query outcome seenHashes) (staticMkFail url)
      (cfg.retry_count + 1) 0 none none [] hallfail
    have hscr : staticScrape cfg robotsFetch url path fields query outcome seenHashes
        = retryLoop cfg.retry_count (staticAttempt cfg url fields query outcome seenHashes)
            (staticMkFail url) 0 (cfg.retry_count + 1) none none [] := by
      rw [staticScrape, hrob]
    have herr : lastErrAcc (staticAttempt cfg url fields query outcome seenHashes) 0
        (cfg.retry_count + 1) none = some (staticErrorMsg (outcome cfg.retry_count)) := by
      rw [lastErrAcc, threadAcc_congr _ (fun j _ => some (staticErrorMsg (outcome j)))
        (fun j a => by rw [staticAttempt_failMsg]) (cfg.retry_count + 1) 0 none]
      rw [threadAcc_lastSome (fun j => staticErrorMsg (outcome j)) cfg.retry_count 0 none]
      rw [show 0 + cfg.retry_count = cfg.retry_count by omega]
    have hhtml : htmlAcc (staticAttempt cfg url fields query outcome seenHashes) 0
        (cfg.retry_count + 1) none = staticHtmlAcross outcome (cfg.retry_count + 1) := by
      rw [htmlAcc, staticHtmlAcross]
      exact threadAcc_congr _ _ (fun j a => by rw [staticAttempt_failUpd])
        (cfg.retry_count + 1) 0 none
    refine ⟨?_, ?_, ?_, rfl⟩
    · rw [hscr, hloop]
      rfl
    · rw [hscr, hloop]
      show lastErrAcc _ 0 (cfg.retry_count + 1) none = _
      rw [herr]
    · rw [hscr, hloop]
      show htmlAcc _ 0 (cfg.retry_count + 1) none = _
      rw [hhtml]
  · intro jcfg url fields query outcome seenHashes hfail
    have hallfail : ∀ j, j < jcfg.retry_count + 1 →
        isFailedAttempt (jsAttempt jcfg url fields query outcome seenHashes (0 + j))
          = true := by
      intro j hj
      rw [show 0 + j = j by omega, jsAttempt_isFailed]
      exact hfail j (by omega)
    have hloop := retryLoop_allFail jcfg.retry_count
      (jsAttempt jcfg url fields query outcome seenHashes) (jsMkFail jcfg url)
      (jcfg.retry_count + 1) 0 none none [] hallfail
    have herr : lastErrAcc (jsAttempt jcfg url fields query outcome seenHashes) 0
        (jcfg.retry_count + 1) none = some (jsErrorMsg (outcome jcfg.retry_count)) := by
      rw [lastErrAcc, threadAcc_congr _ (fun j _ => some (jsErrorMsg (outcome j)))
        (fun j a => by rw [jsAttempt_failMsg]) (jcfg.retry_count + 1) 0 none]
      rw [threadAcc_lastSome (fun j => jsErrorMsg (outcome j)) jcfg.retry_count 0 none]
      rw [show 0 + jcfg.retry_count = jcfg.retry_count by omega]
    have hhtml : htmlAcc (jsAttempt jcfg url fields query outcome seenHashes) 0
        (jcfg.retry_count + 1) none = jsHtmlAcross outcome (jcfg.retry_count + 1) := by
      rw [htmlAcc, jsHtmlAcross]
      exact threadAcc_congr _ _ (fun j a => by rw [jsAttempt_failUpd])
        (jcfg.retry_count + 1) 0 none
    refine ⟨?_, ?_, ?_⟩
    · rw [jsScrape, hloop]
      rfl
    · rw [jsScrape, hloop]
      show lastErrAcc _ 0 (jcfg.retry_count + 1) none = _
      rw [herr]
    · rw [jsScrape, hloop]
      show (if jcfg.save_html_on_error = true
            then htmlAcc _ 0 (jcfg.retry_count + 1) none else none) = _
      rw [hhtml]

/-- C5 witness: the amended exhaustion behaviour evaluated on concrete
always-failing runs of both engines. -/
theorem C5_retry_exhaustion_witness :
    (staticScrape c5cfg none ("http://x.example") "/p" [] (fun _ _ => none)
        (fun _ => StaticOutcome.unexpectedError (some ("<html>partial</html>")) "boom")
        []).result.error
      = some (staticErrorMsg (StaticOutcome.unexpectedError (some ("<html>partial</html>")) "boom"))
    ∧ (jsScrape { save_html_on_error := false } "http://x.example" [] (fun _ _ => none)
        (fun _ => JsOutcome.fail (some ("<p>x</p>")) "render err") []).result.html = none := by
  constructor
  · exact (C5_retry_exhaustion.1 c5cfg none ("http://x.example") "/p" [] (fun _ _ => none)
      (fun _ => StaticOutcome.unexpectedError (some ("<html>partial</html>")) "boom") []
      rfl (fun j hj => rfl)).2.1
  · have h := (C5_retry_exhaustion.2 { save_html_on_error := false } "http://x.example" []
      (fun _ _ => none) (fun _ => JsOutcome.fail (some ("<p>x</p>")) "render err") []
      (fun j hj => rfl)).2.2
    rw [h]
    rfl

/-! ## Claim C7 — retry attempts and exponential backoff sleeps -/

theorem sleepAcc_range (rc : Nat) :
    ∀ (k i : Nat) (sl : List Nat), i + k ≤ rc →
      sleepAcc rc i k sl = ((List.range k).map (fun j => 2 ^ (i + j))).reverse ++ sl := by
  intro k
  induction k with
  | zero =>
    intro i sl _
    simp [sleepAcc, threadAcc]
  | succ n ih =>
    intro i sl hle
    have hi : i < rc := by omega
    have hstep : sleepAcc rc i (n + 1) sl
        = sleepAcc rc (i + 1) n (if i < rc then 2 ^ i :: sl else sl) := rfl
    rw [hstep, if_pos hi, ih (i + 1) (2 ^ i :: sl) (by omega)]
    rw [List.range_succ_eq_map, List.map_cons, List.reverse_cons, List.append_assoc,
      List.singleton_append, List.map_map]
    rw [show i + 0 = i by omega]
    have hmaps : (List.range n).map ((fun j => 2 ^ (i + j)) ∘ Nat.succ)
        = (List.range n).map (fun j => 2 ^ (i + 1 + j)) := by
      apply List.map_congr_left
      intro j _
      show 2 ^ (i + (j + 1)) = 2 ^ (i + 1 + j)
      rw [show i + (j + 1) = i + 1 + j by omega]
    rw [hmaps]

theorem sleepAcc_reverse_eq (rc k : Nat) (hk : k ≤ rc) :
    (sleepAcc rc 0 k []).reverse = (List.range k).map (fun j => 2 ^ j) := by
  rw [sleepAcc_range rc k 0 [] (by omega), List.append_nil, List.reverse_reverse]
  apply List.map_congr_left
  intro j _
  rw [show 0 + j = j by omega]

theorem sleepAcc_full (rc : Nat) :
    (sleepAcc rc 0 (rc + 1) []).reverse = (List.range rc).map (fun j => 2 ^ j) := by
  have hstep : sleepAcc rc 0 (rc + 1) []
      = (if 0 + rc < rc then 2 ^ (0 + rc) :: sleepAcc rc 0 rc [] else sleepAcc rc 0 rc []) := by
    rw [sleepAcc, threadAcc_succ_back]
    split
    · rfl
    · rfl
  rw [hstep, if_neg (by omega)]
  exact sleepAcc_reverse_eq rc rc (le_refl rc)

/-- C7: a scrape attempt sequence in which the first `k` attempts fail and
attempt `k` succeeds (`k ≤ retry_count`) yields a successful result after
exactly `k + 1` attempts, with backoff sleeps `2 ^ 0, …, 2 ^ (k - 1)`
seconds (1s before the second attempt, 2s before the third, …) and no
further attempts or sleeps; when every attempt fails, both engines stop
after `retry_count + 1` attempts with sleeps `2 ^ 0, …, 2 ^ (retry_count - 1)`. -/
theorem C7_retry_backoff :
    (∀ (cfg : StaticCfg) (robotsFetch : Option (String → Bool)) (url path : String)
        (fields : List SelectorField) (query : String → String → Option String)
        (outcome : Nat → StaticOutcome) (seenHashes : List (List (String × Option String)))
        (k : Nat) (html : String) (status : Nat),
      staticCheckRobots cfg.respect_robots robotsFetch url path = none →
      k ≤ cfg.retry_count →
      (∀ j, j < k → staticIsFail (outcome j) = true) →
      outcome k = StaticOutcome.ok html status →
      (staticScrape cfg robotsFetch url path fields query outcome seenHashes).result.success
          = true
      ∧ (staticScrape cfg robotsFetch url path fields query outcome seenHashes).attemptsMade
          = k + 1
      ∧ (staticScrape cfg robotsFetch url path fields query outcome seenHashes).sleeps
          = (List.range k).map (fun j => 2 ^ j))
    ∧ (∀ (jcfg : JsCfg) (url : String) (fields : List SelectorField)
        (query : String → String → Option String) (outcome : Nat → JsOutcome)
        (seenHashes : List (List (String × Option String))) (k : Nat) (html : String)
        (status : Option Nat),
      k ≤ jcfg.retry_count →
      (∀ j, j < k → jsIsFail (outcome j) = true) →
      outcome k = JsOutcome.ok html status →
      (jsScrape jcfg url fields query outcome seenHashes).result.success = true
      ∧ (jsScrape jcfg url fields query outcome seenHashes).attemptsMade = k + 1
      ∧ (jsScrape jcfg url fields query outcome seenHashes).sleeps
          = (List.range k).map (fun j => 2 ^ j))
    ∧ (∀ (cfg : StaticCfg) (robotsFetch : Option (String → Bool)) (url path : String)
        (fields : List SelectorField) (query : String → String → Option String)
        (outcome : Nat → StaticOutcome) (seenHashes : List (List (String × Option String))),
      staticCheckRobots cfg.respect_robots robotsFetch url path = none →
      (∀ j, j ≤ cfg.retry_count → staticIsFail (outcome j) = true) →
      (staticScrape cfg robotsFetch url path fields query outcome seenHashes).attemptsMade
          = cfg.retry_count + 1
      ∧ (staticScrape cfg robotsFetch url path fields query outcome seenHashes).sleeps
          = (List.range cfg.retry_count).map (fun j => 2 ^ j))
    ∧ (∀ (jcfg : JsCfg) (url : String) (fields : List SelectorField)
        (query : String → String → Option String) (outcome : Nat → JsOutcome)
        (seenHashes : List (List (String × Option String))),
      (∀ j, j ≤ jcfg.retry_count → jsIsFail (outcome j) = true) →
      (jsScrape jcfg url fields query outcome seenHashes).attemptsMade = jcfg.retry_count + 1
      ∧ (jsScrape jcfg url fields query outcome seenHashes).sleeps
          = (List.range jcfg.retry_count).map (fun j => 2 ^ j)) := by
  refine ⟨?_, ?_, ?_, ?_⟩
  · intro cfg robotsFetch url path fields query outcome seenHashes k html status hrob hk
      hfails hok
    have hscr : staticScrape cfg robotsFetch url path fields query outcome seenHashes
        = retryLoop cfg.retry_count (staticAttempt cfg url fields query outcome seenHashes)
            (staticMkFail url) 0 (cfg.retry_count + 1) none none [] := by
      rw [staticScrape, hrob]
    have hfails0 : ∀ j, j < k →
        isFailedAttempt (staticAttempt cfg url fields query outcome seenHashes (0 + j))
          = true := by
      intro j hj
      rw [show 0 + j = j by omega, staticAttempt_isFailed]
      exact hfails j hj
    have hdata := extractAllData (query html) fields
    by_cases hdup : cfg.detect_duplicates = true
        ∧ compute_hash (extractAllData (query html) fields) ∈ seenHashes
    · have hdone : staticAttempt cfg url fields query outcome seenHashes (0 + k)
          = AttemptRes.done { url := url, success := true
                              data := extractAllData (query html) fields
                              status_code := some status
                              error := some ("Duplicate detected (skipped)")
                              html := some html } := by
        rw [show 0 + k = k by omega]
        simp only [staticAttempt, hok]
        rw [if_pos hdup]
      have hloop := retryLoop_succAt cfg.retry_count
        (staticAttempt cfg url fields query outcome seenHashes) (staticMkFail url)
        k (cfg.retry_count + 1) 0 none none [] _ (by omega) hfails0 hdone
      rw [hscr, hloop]
      exact ⟨rfl, by show 0 + k + 1 = k + 1; omega, by
        show (sleepAcc cfg.retry_count 0 k []).reverse = _
        exact sleepAcc_reverse_eq cfg.retry_count k hk⟩
    · have hdone : staticAttempt cfg url fields query outcome seenHashes (0 + k)
          = AttemptRes.done { url := url, success := true
                              data := extractAllData (query html) fields
                              status_code := some status
                              html := some html } := by
        rw [show 0 + k = k by omega]
        simp only [staticAttempt, hok]
        rw [if_neg hdup]
      have hloop := retryLoop_succAt cfg.retry_count
        (staticAttempt cfg url fields query outcome seenHashes) (staticMkFail url)
        k (cfg.retry_count + 1) 0 none none [] _ (by omega) hfails0 hdone
      rw [hscr, hloop]
      exact ⟨rfl, by show 0 + k + 1 = k + 1; omega, by
        show (sleepAcc cfg.retry_count 0 k []).reverse = _
        exact sleepAcc_reverse_eq cfg.retry_count k hk⟩
  · intro jcfg url fields query outcome seenHashes k html status hk hfails hok
    have hfails0 : ∀ j, j < k →
        isFailedAttempt (jsAttempt jcfg url fields query outcome seenHashes (0 + j))
          = true := by
      intro j hj
      rw [show 0 + j = j by omega, jsAttempt_isFailed]
      exact hfails j hj
    by_cases hdup : jcfg.detect_duplicates = true
        ∧ compute_hash (jsExtractAllData (query html) fields) ∈ seenHashes
    · have hdone : jsAttempt jcfg url fields query outcome seenHashes (0 + k)
          = AttemptRes.done { url := url, success := true
                              data := jsExtractAllData (query html) fields
                              status_code := status
                              error := some ("Duplicate detected (skipped)") } := by
        rw [show 0 + k = k by omega]
        simp only [jsAttempt, hok]
        rw [if_pos hdup]
      have hloop := retryLoop_succAt jcfg.retry_count
        (jsAttempt jcfg url fields query outcome seenHashes) (jsMkFail jcfg url)
        k (jcfg.retry_count + 1) 0 none none [] _ (by omega) hfails0 hdone
      rw [jsScrape, hloop]
      exact ⟨rfl, by show 0 + k + 1 = k + 1; omega, by
        show (sleepAcc jcfg.retry_count 0 k []).reverse = _
        exact sleepAcc_reverse_eq jcfg.retry_count k hk⟩
    · have hdone : jsAttempt jcfg url fields query outcome seenHashes (0 + k)
          = AttemptRes.done { url := url, success := true
                              data := jsExtractAllData (query html) fields
                              status_code := status } := by
        rw [show 0 + k = k by omega]
        simp only [jsAttempt, hok]
        rw [if_neg hdup]
      have hloop := retryLoop_succAt jcfg.retry_count
        (jsAttempt jcfg url fields query outcome seenHashes) (jsMkFail jcfg url)
        k (jcfg.retry_count + 1) 0 none none [] _ (by omega) hfails0 hdone
      rw [jsScrape, hloop]
      exact ⟨rfl, by show 0 + k + 1 = k + 1; omega, by
        show (sleepAcc jcfg.retry_count 0 k []).reverse = _
        exact sleepAcc_reverse_eq jcfg.retry_count k hk⟩
  · intro cfg robotsFetch url path fields query outcome seenHashes hrob hfail
    have hallfail : ∀ j, j < cfg.retry_count + 1 →
        isFailedAttempt (staticAttempt cfg url fields query outcome seenHashes (0 + j))
          = true := by
      intro j hj
      rw [show 0 + j = j by omega, staticAttempt_isFailed]
      exact hfail j (by omega)
    have hloop := retryLoop_allFail cfg.retry_count
      (staticAttempt cfg url fields query outcome seenHashes) (staticMkFail url)
      (cfg.retry_count + 1) 0 none none [] hallfail
    have hscr : staticScrape cfg robotsFetch url path fields query outcome seenHashes
        = retryLoop cfg.retry_count (staticAttempt cfg url fields query outcome seenHashes)
            (staticMkFail url) 0 (cfg.retry_count + 1) none none [] := by
      rw [staticScrape, hrob]
    rw [hscr, hloop]
    exact ⟨by show 0 + (cfg.retry_count + 1) = cfg.retry_count + 1; omega,
      sleepAcc_full cfg.retry_count⟩
  · intro jcfg url fields query outcome seenHashes hfail
    have hallfail : ∀ j, j < jcfg.retry_count + 1 →
        isFailedAttempt (jsAttempt jcfg url fields query outcome seenHashes (0 + j))
          = true := by
      intro j hj
      rw [show 0 + j = j by omega, jsAttempt_isFailed]
      exact hfail j (by omega)
    have hloop := retryLoop_allFail jcfg.retry_count
      (jsAttempt jcfg url fields query outcome seenHashes) (jsMkFail jcfg url)
      (jcfg.retry_count + 1) 0 none none [] hallfail
    rw [jsScrape, hloop]
    exact ⟨by show 0 + (jcfg.retry_count + 1) = jcfg.retry_count + 1; omega,
      sleepAcc_full jcfg.retry_count⟩

/-- C7 witness: `retry_count = 2`, two failing attempts then a success —
result successful, exactly 3 attempts and sleeps `[1, 2]`. -/
theorem C7_retry_backoff_witness :
    (staticScrape { retry_count := 2 } none ("http://x.example") "/p" []
        (fun _ _ => none) c7outcome []).result.success = true
    ∧ (staticScrape { retry_count := 2 } none ("http://x.example") "/p" []
        (fun _ _ => none) c7outcome []).attemptsMade = 3
    ∧ (staticScrape { retry_count := 2 } none ("http://x.example") "/p" []
        (fun _ _ => none) c7outcome []).sleeps = [1, 2] := by
  have h := C7_retry_backoff.1 { retry_count := 2 } none ("http://x.example") "/p" []
    (fun _ _ => none) c7outcome [] 2 ("<html>ok</html>") 200 rfl (by norm_num)
    (by
      intro j hj
      interval_cases j
      · rfl
      · rfl)
    rfl
  exact ⟨h.1, h.2.1, by rw [h.2.2]; rfl⟩

/-! ## Claim C3 — the shape of `extractedData` -/

theorem any_key_eq_false_iff (d : List (String × Option String)) (k : String) :
    d.any (fun p => p.1 == k) = false ↔ ∀ p ∈ d, p.1 ≠ k := by
  rw [Bool.eq_false_iff]
  constructor
  · intro h p hp hpk
    exact h (List.any_eq_true.2 ⟨p, hp, by simp [hpk]⟩)
  · intro h hc
    obtain ⟨p, hp, hb⟩ := List.any_eq_true.1 hc
    exact h p hp (eq_of_beq hb)

theorem dictInsert_keys_of_mem (d : List (String × Option String)) (k : String)
    (v : Option String) (h : d.any (fun p => p.1 == k) = true) :
    (dictInsert d k v).map Prod.fst = d.map Prod.fst := by
  rw [dictInsert, if_pos h, List.map_map]
  apply List.map_congr_left
  intro p _
  show (if (p.1 == k) = true then (k, v) else p).1 = p.1
  by_cases hb : (p.1 == k) = true
  · rw [if_pos hb]
    exact (eq_of_beq hb).symm
  · rw [if_neg hb]

theorem dictInsert_keys_of_not_mem (d : List (String × Option String)) (k : String)
    (v : Option String) (h : d.any (fun p => p.1 == k) = false) :
    (dictInsert d k v).map Prod.fst = d.map Prod.fst ++ [k] := by
  rw [dictInsert, if_neg (by rw [h]; exact fun hc => Bool.noConfusion hc), List.map_append]
  rfl

theorem dictInsert_keys_mem_iff (d : List (String × Option String)) (k : String)
    (v : Option String) (x : String) :
    x ∈ (dictInsert d k v).map Prod.fst ↔ x ∈ d.map Prod.fst ∨ x = k := by
  by_cases h : d.any (fun p => p.1 == k) = true
  · rw [dictInsert_keys_of_mem d k v h]
    constructor
    · exact Or.inl
    · rintro (hx | hx)
      · exact hx
      · subst hx
        rw [List.any_eq_true] at h
        obtain ⟨p, hp, hb⟩ := h
        exact List.mem_map.2 ⟨p, hp, eq_of_beq hb⟩
  · have hf : d.any (fun p => p.1 == k) = false := by
      cases hv : d.any (fun p => p.1 == k)
      · rfl
      · exact absurd hv h
    rw [dictInsert_keys_of_not_mem d k v hf]
    simp [List.mem_append]

theorem dictInsert_keys_nodup (d : List (String × Option String)) (k : String)
    (v : Option String) (h : (d.map Prod.fst).Nodup) :
    ((dictInsert d k v).map Prod.fst).Nodup := by
  by_cases ha : d.any (fun p => p.1 == k) = true
  · rwa [dictInsert_keys_of_mem d k v ha]
  · have hf : d.any (fun p => p.1 == k) = false := by
      cases hv : d.any (fun p => p.1 == k)
      · rfl
      · exact absurd hv ha
    rw [dictInsert_keys_of_not_mem d k v hf]
    have hnot : k ∉ d.map Prod.fst := by
      rw [any_key_eq_false_iff] at hf
      intro hc
      obtain ⟨p, hp, hpk⟩ := List.mem_map.1 hc
      exact hf p hp hpk
    refine List.Nodup.append h (List.nodup_singleton k) ?_
    intro a hamem hasingleton
    rw [List.mem_singleton] at hasingleton
    subst hasingleton
    exact hnot hamem

theorem foldl_dictInsert_keys_mem (val : SelectorField → Option String) :
    ∀ (fields : List SelectorField) (d : List (String × Option String)) (x : String),
      x ∈ ((fields.foldl (fun acc f => dictInsert acc f.name (val f)) d).map Prod.fst)
        ↔ x ∈ d.map Prod.fst ∨ x ∈ fields.map SelectorField.name := by
  intro fields
  induction fields with
  | nil =>
    intro d x
    simp
  | cons f fs ih =>
    intro d x
    rw [List.foldl_cons, ih (dictInsert d f.name (val f)) x, dictInsert_keys_mem_iff]
    simp only [List.map_cons, List.mem_cons]
    tauto

theorem foldl_dictInsert_keys_nodup (val : SelectorField → Option String) :
    ∀ (fields : List SelectorField) (d : List (String × Option String)),
      (d.map Prod.fst).Nodup →
      ((fields.foldl (fun acc f => dictInsert acc f.name (val f)) d).map Prod.fst).Nodup := by
  intro fields
  induction fields with
  | nil => intro d h; exact h
  | cons f fs ih =>
    intro d h
    rw [List.foldl_cons]
    exact ih _ (dictInsert_keys_nodup d f.name (val f) h)

theorem extractAllData_keys (q : String → Option String) (fields : List SelectorField) :
    ((extractAllData q fields).map Prod.fst).Nodup
    ∧ ∀ x, x ∈ (extractAllData q fields).map Prod.fst ↔ x ∈ fields.map SelectorField.name := by
  constructor
  · exact foldl_dictInsert_keys_nodup (fun f => extract_field q f) fields [] (by simp)
  · intro x
    have := foldl_dictInsert_keys_mem (fun f => extract_field q f) fields [] x
    simpa using this

theorem staticAttempt_done_data (cfg : StaticCfg) (url : String) (fields : List SelectorField)
    (query : String → String → Option String) (outcome : Nat → StaticOutcome)
    (seenHashes : List (List (String × Option String))) (j : Nat) (r : ScrapeResult)
    (h : staticAttempt cfg url fields query outcome seenHashes j = AttemptRes.done r) :
    r.success = true ∧ ∃ html, r.data = extractAllData (query html) fields := by
  cases ho : outcome j with
  | ok html status =>
    simp only [staticAttempt, ho] at h
    split at h
    · injection h with h1
      exact ⟨by rw [← h1], html, by rw [← h1]⟩
    · injection h with h1
      exact ⟨by rw [← h1], html, by rw [← h1]⟩
  | httpError code reason =>
    simp only [staticAttempt, ho] at h
    exact absurd h (fun hc => AttemptRes.noConfusion hc)
  | requestError msg =>
    simp only [staticAttempt, ho] at h
    exact absurd h (fun hc => AttemptRes.noConfusion hc)
  | unexpectedError hh msg =>
    simp only [staticAttempt, ho] at h
    exact absurd h (fun hc => AttemptRes.noConfusion hc)

/-- C3 counterexample: a scrape with one field rule that exhausts its
retries returns a failed result whose `extractedData` is empty — zero
entries, not one (null) entry per rule. -/
theorem C3_counterexample :
    (staticScrape { retry_count := 0 } none ("http://x.example") "/p" [c3field]
        (fun _ _ => none) (fun _ => StaticOutcome.requestError ("connection reset"))
        []).result.data = []
    ∧ [c3field].length = 1 := by
  decide

/-- C3 (amended): every result of the static engine's `scrape` either is
successful and carries exactly one `extractedData` entry per distinct rule
name (rules repeating a name collapse into the one dict slot), or is a
failure result (robots-blocked or retries exhausted) carrying an empty
`extractedData` map. -/
theorem C3_extracted_data_entries (cfg : StaticCfg) (robotsFetch : Option (String → Bool))
    (url path : String) (fields : List SelectorField)
    (query : String → String → Option String) (outcome : Nat → StaticOutcome)
    (seenHashes : List (List (String × Option String))) :
    ((staticScrape cfg robotsFetch url path fields query outcome seenHashes).result.success
        = true
      ∧ (((staticScrape cfg robotsFetch url path fields query outcome
            seenHashes).result.data.map Prod.fst).Nodup
      ∧ ∀ x, x ∈ (staticScrape cfg robotsFetch url path fields query
            outcome seenHashes).result.data.map Prod.fst
          ↔ x ∈ fields.map SelectorField.name))
    ∨ ((staticScrape cfg robotsFetch url path fields query outcome seenHashes).result.success
        = false
      ∧ (staticScrape cfg robotsFetch url path fields query outcome seenHashes).result.data
        = []) := by
  cases hrob : staticCheckRobots cfg.respect_robots robotsFetch url path with
  | some w =>
    right
    have hscr : staticScrape cfg robotsFetch url path fields query outcome seenHashes
        = { result := { url := url, success := false, data := []
                        error := some ("Blocked by robots.txt: " ++ w.message) }
            sleeps := [], attemptsMade := 0 } := by
      rw [staticScrape, hrob]
    rw [hscr]
    exact ⟨rfl, rfl⟩
  | none =>
    have hscr : staticScrape cfg robotsFetch url path fields query outcome seenHashes
        = retryLoop cfg.retry_count (staticAttempt cfg url fields query outcome seenHashes)
            (staticMkFail url) 0 (cfg.retry_count + 1) none none [] := by
      rw [staticScrape, hrob]
    rcases retryLoop_result_cases cfg.retry_count
        (staticAttempt cfg url fields query outcome seenHashes) (staticMkFail url)
        (cfg.retry_count + 1) 0 none none [] with ⟨le1, h1, hres⟩ | ⟨j, r, hdone, hres⟩
    · right
      constructor
      · rw [hscr, hres]
        rfl
      · rw [hscr, hres]
        rfl
    · left
      obtain ⟨hsucc, html0, hdata⟩ := staticAttempt_done_data cfg url fields query outcome
        seenHashes j r hdone
      refine ⟨?_, ?_, ?_⟩
      · rw [hscr, hres]
        exact hsucc
      · rw [hscr, hres, hdata]
        exact (extractAllData_keys (query html0) fields).1
      · intro x
        rw [hscr, hres, hdata]
        exact (extractAllData_keys (query html0) fields).2 x

/-- C3 witness: keys of a successful concrete scrape over two rules, one
of which misses. -/
theorem C3_extracted_data_entries_witness :
    ((staticScrape {} none ("http://x.example") "/p" [c3field]
        (fun _ _ => none) (fun _ => StaticOutcome.ok ("<html></html>") 200) []).result.data.map
          Prod.fst).Nodup
    ∨ (staticScrape {} none ("http://x.example") "/p" [c3field]
        (fun _ _ => none) (fun _ => StaticOutcome.ok ("<html></html>") 200) []).result.data
      = [] := by
  rcases C3_extracted_data_entries {} none ("http://x.example") "/p" [c3field]
      (fun _ _ => none) (fun _ => StaticOutcome.ok ("<html></html>") 200) [] with h | h
  · exact Or.inl h.2.1
  · exact Or.inr h.2

end Parsonic
